/-
Verification of the download-job orchestrator of universal-media-downloader
(src/new.py) against its natural-language specification.

Shallow embedding conventions:
* Python strings are modelled as `List Char` (abbreviated `Str`); machine
  integers do not occur (Python ints are unbounded, exit codes are `Int`).
* The stateful worker `_perform_yt_dlp_download` is modelled as a pure
  function from an environment (the inputs the thread consumes: the
  prediction result, the stream of lines read from the child process, the
  value of the cancellation flag at each observation point, the exit code,
  and the state of the filesystem at verification time) to the list of
  messages it puts on `gui_message_queue`.
* Fallible steps are modelled with `Option`.
All definitions are translated from src/new.py; line numbers in the doc
comments refer to that file.
-/
import Mathlib

namespace UMD

/-- Python strings, modelled as lists of characters. -/
abbrev Str := List Char

/-! ## Decimal printing of naturals (Python `str(n)` / f-string interpolation) -/

/-- The decimal digit characters; `digitChar d` is the character Python prints
for the digit `d < 10`. -/
def digitChar (d : Nat) : Char :=
  match d with
  | 0 => '0' | 1 => '1' | 2 => '2' | 3 => '3' | 4 => '4'
  | 5 => '5' | 6 => '6' | 7 => '7' | 8 => '8' | 9 => '9'
  | _ => '*'

/-- Inverse of `digitChar` on decimal digits. -/
def charDigit (c : Char) : Nat :=
  match c with
  | '0' => 0 | '1' => 1 | '2' => 2 | '3' => 3 | '4' => 4
  | '5' => 5 | '6' => 6 | '7' => 7 | '8' => 8 | '9' => 9
  | _ => 0

/-- Python `str(n)` for a natural number: its decimal digits, most significant
first, with `str(0) = "0"`. -/
def pyNat (n : Nat) : Str :=
  if n = 0 then ['0'] else ((Nat.digits 10 n).map digitChar).reverse

/-- Python `str(i)` for an integer: a minus sign followed by the decimal
digits when negative. -/
def intStr (i : Int) : Str :=
  if i < 0 then '-' :: pyNat i.natAbs else pyNat i.toNat

/-- Evaluates a most-significant-first decimal digit string back to a number;
a left inverse of `pyNat` used to prove `pyNat` injective. -/
def valOf (l : Str) : Nat :=
  l.foldl (fun a c => 10 * a + charDigit c) 0

theorem charDigit_digitChar {d : Nat} (h : d < 10) : charDigit (digitChar d) = d := by
  interval_cases d <;> rfl

theorem foldl_digits (ds : List Nat) (h : ∀ d ∈ ds, d < 10) (a : Nat) :
    ((ds.map digitChar).reverse).foldl (fun x c => 10 * x + charDigit c) a
      = a * 10 ^ ds.length + Nat.ofDigits 10 ds := by
  induction ds generalizing a with
  | nil => simp [Nat.ofDigits_nil]
  | cons d rest ih =>
    have hd : d < 10 := h d (by simp)
    have hrest : ∀ x ∈ rest, x < 10 := fun x hx => h x (by simp [hx])
    simp only [List.map_cons, List.reverse_cons, List.foldl_append, List.foldl_cons,
      List.foldl_nil, ih hrest a, Nat.ofDigits_cons, List.length_cons]
    rw [charDigit_digitChar hd]
    ring

theorem valOf_pyNat (n : Nat) : valOf (pyNat n) = n := by
  unfold pyNat valOf
  by_cases h : n = 0
  · simp [h, charDigit]
  · simp only [h, if_false]
    have := foldl_digits (Nat.digits 10 n)
      (fun d hd => Nat.digits_lt_base (by norm_num) hd) 0
    simpa [Nat.ofDigits_digits] using this

theorem pyNat_injective : Function.Injective pyNat :=
  Function.LeftInverse.injective valOf_pyNat

theorem pyNat_ne_nil (n : Nat) : pyNat n ≠ [] := by
  unfold pyNat
  by_cases h : n = 0
  · simp [h]
  · simp only [h, if_false]
    intro hc
    have : Nat.digits 10 n ≠ [] := Nat.digits_ne_nil_iff_ne_zero.mpr h
    simp at hc
    exact this hc

/-! ## `os.path.splitext`, Python slicing and `sanitize_filename` (new.py lines 505-525) -/

/-- `os.path.splitext` for a name with no path separators (the only use sites
pass sanitized names or titles): splits at the last dot, except that a name
whose characters before that dot are all dots (e.g. `".bashrc"`, `"..."`) has
no extension. -/
def splitext (l : Str) : Str × Str :=
  match l.reverse.findIdx? (fun c => c = '.') with
  | none => (l, [])
  | some irev =>
    let i := l.length - 1 - irev
    if (l.take i).any (fun c => c ≠ '.') then (l.take i, l.drop i) else (l, [])

theorem splitext_append (l : Str) : (splitext l).1 ++ (splitext l).2 = l := by
  unfold splitext
  cases l.reverse.findIdx? (fun c => c = '.') with
  | none => simp
  | some irev =>
    dsimp only
    split
    · exact List.take_append_drop _ l
    · simp

/-- Python `l[:n]` for an `Int` bound `n`: a negative bound counts from the
end of the list. -/
def pySlice (l : Str) (n : Int) : Str :=
  if 0 ≤ n then l.take n.toNat else l.take (l.length - (-n).toNat)

/-- The characters replaced by `_` in `sanitize_filename`:
the regex `[<>:"/\\|?*\x00-\x1F]` (new.py line 513). -/
def invalidChar (c : Char) : Bool :=
  c = '<' || c = '>' || c = ':' || c = '"' || c = '/' || c = '\\' ||
  c = '|' || c = '?' || c = '*' || decide (c.toNat ≤ 31)

/-- Lines 510-514 of `sanitize_filename`: drop everything from the first `?`
(query) and first `#` (fragment), then replace each invalid character with
`_`.  The `sys.platform == 'win32'` reserved-name branch (lines 515-520) is
not modelled: the embedding fixes the POSIX platform. -/
def sanitizeBody (filename : Str) : Str :=
  ((filename.takeWhile (fun c => c ≠ '?')).takeWhile (fun c => c ≠ '#')).map
    (fun c => if invalidChar c then '_' else c)

/-- Lines 521-524: if the sanitized name exceeds 200 characters, keep the
extension and slice the stem to `200 - len(ext)` characters — a Python slice,
so a negative bound trims from the end of the stem instead of clearing it. -/
def truncate200 (s : Str) : Str :=
  if 200 < s.length then
    pySlice (splitext s).1 (200 - ((splitext s).2.length : Int)) ++ (splitext s).2
  else s

/-- `sanitize_filename` (new.py lines 505-525), POSIX platform: empty input
and an empty sanitization result both fall back to `"download"`. -/
def sanitize_filename (filename : Str) : Str :=
  if filename = [] then "download".data
  else
    let s := truncate200 (sanitizeBody filename)
    if s = [] then "download".data else s

/-! ## Filename collision avoidance (new.py lines 614-627) -/

/-- The default extension appended when the predicted name has none
(new.py lines 617-618): `.mp4` for video, `.mp3` otherwise (audio). -/
def ytDefaultExt (media_type : String) : Str :=
  if media_type = "video" then ".mp4".data else ".mp3".data

/-- The candidate name tried at counter value `k` (new.py lines 619, 623):
counter `0` is the bare `base + ext`, counter `k+1` is
`f"{base_name} ({counter}){ext}"`. -/
def collisionName (base ext : Str) : Nat → Str
  | 0 => base ++ ext
  | k + 1 => base ++ ([' ', '('] ++ pyNat (k + 1) ++ [')']) ++ ext

/-- The `while` loop of lines 620-623, written with explicit fuel: starting
at counter `k`, return the first candidate name not present in the output
directory.  `findName_spec` below shows that fuel `existing.length + 1`
always suffices, so the fuel never runs out on the loop's actual uses and
the definition agrees with the unbounded source loop. -/
def findName (existing : List Str) (base ext : Str) : Nat → Nat → Str
  | 0, k => collisionName base ext k
  | fuel + 1, k =>
    if collisionName base ext k ∈ existing then findName existing base ext fuel (k + 1)
    else collisionName base ext k

/-- Lines 614-627: split the predicted name, default a missing extension by
media type, then — unless `overwrite_existing_file` is set — bump the counter
until the name does not collide with a file already in the directory
(`existing` is the set of names for which `os.path.exists` is true). -/
def resolveName (overwrite : Bool) (existing : List Str) (media_type : String)
    (predicted : Str) : Str :=
  let base := (splitext predicted).1
  let ext := if (splitext predicted).2 = [] then ytDefaultExt media_type
             else (splitext predicted).2
  if overwrite then base ++ ext
  else findName existing base ext (existing.length + 1) 0

theorem collisionName_injective (base ext : Str) :
    Function.Injective (collisionName base ext) := by
  intro j k h
  match j, k with
  | 0, 0 => rfl
  | 0, l + 1 =>
    exfalso
    have := congrArg List.length h
    simp [collisionName] at this
    omega
  | j + 1, 0 =>
    exfalso
    have := congrArg List.length h
    simp [collisionName] at this
    omega
  | j + 1, l + 1 =>
    unfold collisionName at h
    have h3 : pyNat (j + 1) = pyNat (l + 1) := by
      simpa [List.append_assoc] using h
    have := pyNat_injective h3
    omega

theorem exists_collision_free (existing : List Str) (base ext : Str) :
    ∃ j, j ≤ existing.length ∧ collisionName base ext j ∉ existing := by
  by_contra hc
  push_neg at hc
  set n := existing.length with hn
  have hsub : (Finset.range (n + 1)).image (collisionName base ext)
      ⊆ existing.toFinset := by
    intro x hx
    rcases Finset.mem_image.mp hx with ⟨j, hj, rfl⟩
    exact List.mem_toFinset.mpr (hc j (by
      have := Finset.mem_range.mp hj
      omega))
  have hcard : ((Finset.range (n + 1)).image (collisionName base ext)).card = n + 1 := by
    rw [Finset.card_image_of_injective _ (collisionName_injective base ext)]
    simp
  have hle : n + 1 ≤ existing.toFinset.card := hcard ▸ Finset.card_le_card hsub
  have := existing.toFinset_card_le
  omega

theorem findName_spec (existing : List Str) (base ext : Str) :
    ∀ fuel k, (∃ j, j < fuel ∧ collisionName base ext (k + j) ∉ existing) →
      ∃ j, j < fuel ∧ findName existing base ext fuel k = collisionName base ext (k + j) ∧
        collisionName base ext (k + j) ∉ existing ∧
        ∀ i < j, collisionName base ext (k + i) ∈ existing := by
  intro fuel
  induction fuel with
  | zero => intro k ⟨j, hj, _⟩; omega
  | succ fuel ih =>
    intro k ⟨j, hj, hfree⟩
    by_cases hmem : collisionName base ext k ∈ existing
    · have hj0 : j ≠ 0 := by
        rintro rfl
        simp at hfree
        exact hfree hmem
      obtain ⟨j', rfl⟩ : ∃ j', j = j' + 1 := ⟨j - 1, by omega⟩
      have hrec := ih (k + 1) ⟨j', by omega, by
        have : k + 1 + j' = k + (j' + 1) := by omega
        rw [this]; exact hfree⟩
      obtain ⟨j'', hj'', heq, hfree'', hmin''⟩ := hrec
      refine ⟨j'' + 1, by omega, ?_, ?_, ?_⟩
      · rw [findName, if_pos hmem, heq]
        congr 1
        omega
      · have : k + (j'' + 1) = k + 1 + j'' := by omega
        rw [this]; exact hfree''
      · intro i hi
        cases i with
        | zero => simpa using hmem
        | succ i' =>
          have : k + (i' + 1) = k + 1 + i' := by omega
          rw [this]
          exact hmin'' i' (by omega)
    · exact ⟨0, by omega, by rw [findName, if_neg hmem]; simp, by simpa using hmem,
        by omega⟩

/-! ## The progress parser (new.py lines 671-683) -/

/-- Python's substring test `needle in hay`: some position of `hay` starts
with `needle`. -/
def containsSub (needle : Str) : Str → Bool
  | [] => needle.isEmpty
  | c :: rest => needle.isPrefixOf (c :: rest) || containsSub needle rest

/-- One anchored attempt of the regex `(\d+\.\d+)%` (new.py line 674): a
nonempty digit run, a dot, a nonempty digit run, then `%`.  Both `\d+` are
greedy; since every character of a digit run is a digit, a literal `.` or `%`
can only follow the maximal run, so taking the maximal runs is exactly the
regex's backtracking semantics. -/
def matchPercent (l : Str) : Option Str :=
  let d1 := l.takeWhile Char.isDigit
  if d1 = [] then none
  else
    match l.dropWhile Char.isDigit with
    | '.' :: r2 =>
      let d2 := r2.takeWhile Char.isDigit
      if d2 = [] then none
      else
        match r2.dropWhile Char.isDigit with
        | '%' :: _ => some (d1 ++ '.' :: d2)
        | _ => none
    | _ => none

/-- `re.search(r'(\d+\.\d+)%', line)`: the leftmost match of the group. -/
def findPercent : Str → Option Str
  | [] => none
  | c :: rest =>
    match matchPercent (c :: rest) with
    | some g => some g
    | none => findPercent rest

/-- A message put on `gui_message_queue`.  `update` is an
`update_download_status` message (status string plus the optional
`progress`, `message`, `filename` and `filesize_bytes` fields it carries);
`addCompleted` is the `add_completed` message; `registerProcess` and
`removeProcess` are the process-tracker bookkeeping messages.  The `url` and
`timestamp` fields, constant per job, are omitted. -/
inductive Msg where
  | update (status : String) (progress : Option Str) (message : Option Str)
      (filename : Option Str) (filesize : Option Nat)
  | addCompleted (filetype : String) (filename : Str) (is_playlist : Bool)
      (path : Str) (filesize : Nat)
  | registerProcess
  | removeProcess
deriving DecidableEq

/-- The per-stdout-line branch of the read loop (new.py lines 671-679): a
line containing `[download]` and `%` yields a `Downloading` progress update
when the percentage regex matches (and nothing otherwise — note the `elif`);
otherwise a line containing `[ExtractAudio]` or `[ffmpeg]` yields a
`Processing` update; all other lines yield nothing and never raise. -/
def parseStdoutLine (l : Str) : List Msg :=
  if containsSub "[download]".data l && containsSub "%".data l then
    match findPercent l with
    | some g => [.update "Downloading" (some (g ++ "%".data)) none none none]
    | none => []
  else if containsSub "[ExtractAudio]".data l || containsSub "[ffmpeg]".data l then
    [.update "Processing" none none none none]
  else []

/-! ## The supervised read loop (new.py lines 657-684) -/

/-- Result of the read loop: the status messages emitted, the stderr lines
collected into `error_lines`, whether the loop broke on the cancellation
flag, and the index of the next unused observation point of that flag. -/
structure LoopOut where
  msgs : List Msg
  errs : List Str
  broke : Bool
  idx : Nat
deriving DecidableEq

def stdoutMsgs : Option Str → List Msg
  | some l => parseStdoutLine l
  | none => []

def stderrLines : Option Str → List Str
  | some e => [e]
  | none => []

/-- The `while True` read loop (lines 660-683).  `c` gives the value of
`cancel_event.is_set()` at each successive observation point; `iters` is the
stream of `(stdout.readline(), stderr.readline())` results while the process
is alive (`none` models an empty read), after which both reads are empty and
`poll()` is non-`None`, ending the loop.  Each iteration first observes the
flag (breaking if set), then parses the stdout line and collects the stderr
line. -/
def loopRun (c : Nat → Bool) : List (Option Str × Option Str) → Nat → LoopOut
  | [], k => { msgs := [], errs := [], broke := c k, idx := k + 1 }
  | it :: rest, k =>
    if c k then { msgs := [], errs := [], broke := true, idx := k + 1 }
    else
      let o := loopRun c rest (k + 1)
      { msgs := stdoutMsgs it.1 ++ o.msgs, errs := stderrLines it.2 ++ o.errs,
        broke := o.broke, idx := o.idx }

/-! ## The download worker `_perform_yt_dlp_download` (new.py lines 527-759) -/

/-- The environment a single run of the worker thread consumes. -/
structure Env where
  /-- `is_playlist` argument. -/
  is_playlist : Bool
  /-- `media_type` argument (`"video"` or `"audio"`). -/
  media_type : String
  /-- `settings.get('overwrite_existing_file')`. -/
  overwrite : Bool
  /-- Names in the output directory for which `os.path.exists` is true. -/
  existing : List Str
  /-- `download_dir` argument. -/
  download_dir : Str
  /-- `os.path.basename(url)`, the provisional display name (line 529). -/
  urlBase : Str
  /-- The predicted filename produced by the prediction step
  (lines 574-612): the sanitized tool-reported title, already free of path
  separators.  For a playlist this is the sanitized playlist title used as a
  directory name. -/
  predicted : Str
  /-- `some msg` when the prediction step raised (e.g. the bounded
  `run_command_in_bundle` call timed out, lines 576-591) before any status
  message was emitted; the exception text reaches the `except` handler. -/
  predictionError : Option Str
  /-- The value of `cancel_event.is_set()` at each observation point.  The
  source flag is a `threading.Event` that is never cleared, so it is
  monotone in time; theorems that need this take it as a hypothesis. -/
  cancelObs : Nat → Bool
  /-- The `(stdout, stderr)` line pairs read while the process runs. -/
  iters : List (Option Str × Option Str)
  /-- `current_process.poll()` after the loop exits without cancellation. -/
  returnCode : Int
  /-- Verification-time filesystem state for a single-file job: `some s`
  when the final output file exists with size `s` bytes. -/
  fileSize : Option Nat
  /-- Verification-time filesystem state for a playlist job: whether the
  playlist directory exists. -/
  dirExists : Bool
  /-- Recursive sum of file sizes under the playlist directory (0 when the
  walk failed, line 709). -/
  dirSize : Nat

/-- POSIX `os.path.join` of a directory and a name. -/
def pathJoin (dir name : Str) : Str := dir ++ '/' :: name

/-- Python `l[-n:]`. -/
def lastN (n : Nat) (l : List Str) : List Str := l.drop (l.length - n)

/-- Python `'\n'.join(l)`. -/
def joinNL (l : List Str) : Str := List.intercalate ['\n'] l

/-- The text of the exception raised on a genuinely failing exit code
(line 695): `f"yt-dlp download failed (exit code {return_code}): {error_msg}"`. -/
def failExitMsg (rc : Int) (tail : Str) : Str :=
  "yt-dlp download failed (exit code ".data ++ intStr rc ++ "): ".data ++ tail

/-- The text of the exception raised when the single output file is missing
(line 716). -/
def notFoundFileMsg (path : Str) : Str :=
  "Downloaded file not found at expected location: ".data ++ path

/-- The text of the exception raised when the playlist directory is missing
(line 711). -/
def notFoundDirMsg (path : Str) : Str :=
  "Downloaded playlist directory not found at expected location: ".data ++ path

/-- The name the worker settles on before starting the process: the playlist
directory name (line 581), or for a single file the collision-resolved
filename (lines 614-627). -/
def chosenName (e : Env) : Str :=
  if e.is_playlist then e.predicted
  else resolveName e.overwrite e.existing e.media_type e.predicted

/-- The read loop's outcome for this environment. -/
def loopOut (e : Env) : LoopOut := loopRun e.cancelObs e.iters 0

/-- The post-loop `cancel_event.is_set()` check (line 688): true when the
loop broke on the flag (the event stays set) or the flag is observed set at
the check itself. -/
def postCancel (e : Env) : Bool := (loopOut e).broke || e.cancelObs (loopOut e).idx

/-- The provisional display name before prediction (line 529). -/
def initialName (e : Env) : Str :=
  if e.is_playlist then "Playlist Download".data else e.urlBase

/-- Lines 685-737: the messages emitted after the read loop ends.
Cancellation is handled first (lines 688-690); then exit codes other than
0 and -15 (SIGTERM) raise, reaching the `except` handler which emits
`Failed` with the last 10 stderr lines (lines 693-695, 739-742); then
verification: a missing file or playlist directory raises (also `Failed`),
and otherwise `Completed` plus `add_completed` are emitted with the measured
size — existence is checked, emptiness is not (lines 697-737). -/
def terminalMsgs (e : Env) : List Msg :=
  if postCancel e then
    [.update "Cancelled" none (some "Download cancelled by user.".data) none none]
  else if e.returnCode ≠ 0 ∧ e.returnCode ≠ -15 then
    [.update "Failed" none
      (some (failExitMsg e.returnCode (joinNL (lastN 10 (loopOut e).errs))))
      (some (chosenName e)) none]
  else if e.is_playlist then
    if e.dirExists then
      [.update "Completed" (some "100%".data) none (some (chosenName e)) (some e.dirSize),
       .addCompleted "playlist" (chosenName e) true
         (pathJoin e.download_dir (chosenName e)) e.dirSize]
    else
      [.update "Failed" none
        (some (notFoundDirMsg (pathJoin e.download_dir (chosenName e))))
        (some (chosenName e)) none]
  else
    match e.fileSize with
    | some s =>
      [.update "Completed" (some "100%".data) none (some (chosenName e)) (some s),
       .addCompleted e.media_type (chosenName e) false
         (pathJoin e.download_dir (chosenName e)) s]
    | none =>
      [.update "Failed" none
        (some (notFoundFileMsg (pathJoin e.download_dir (chosenName e))))
        (some (chosenName e)) none]

/-- The messages emitted before the loop ends: `Initializing` (line 639),
`register_process` (line 655) and the read-loop messages. -/
def preMsgs (e : Env) : List Msg :=
  [.update "Initializing" none none (some (chosenName e)) none, .registerProcess]
    ++ (loopOut e).msgs

/-- The full message trace of one worker run (new.py lines 527-759).  When
the prediction step raises, the `except` handler emits `Failed` and the
`finally` block emits `remove_process`.  Otherwise: `Initializing`
(line 639), `register_process` (line 655), the read-loop messages, the
terminal messages, and `remove_process` (line 753). -/
def workerTrace (e : Env) : List Msg :=
  match e.predictionError with
  | some msg =>
    [.update "Failed" none (some msg) (some (initialName e)) none, .removeProcess]
  | none =>
    preMsgs e ++ terminalMsgs e ++ [.removeProcess]

/-- The status string of an `update_download_status` message. -/
def statusOf : Msg → Option String
  | .update s _ _ _ _ => some s
  | _ => none

/-- Whether a message is a terminal status event. -/
def isTerminalMsg (m : Msg) : Bool :=
  match statusOf m with
  | some s => s == "Completed" || s == "Failed" || s == "Cancelled"
  | none => false

/-- The first terminal status event of a trace. -/
def getTerminal (t : List Msg) : Option Msg := t.find? isTerminalMsg

/-! ## The `/download` submission route (new.py lines 1049-1149) -/

/-- The synchronous answer of the `/download` route. -/
inductive SubmitResult where
  | rejected (error : String) (code : Nat)
  | accepted
deriving DecidableEq

/-- The submission decision of the `/download` route (new.py lines
1049-1149).  `active` is the GUI's current active-downloads list (keyed by
URL), threaded through so that claims about duplicate handling can be
stated; the source route never consults it — its only synchronous check is
`if not url` (lines 1058-1059), after which it unconditionally queues an
`add_download` message and spawns a worker thread (lines 1124-1138) and
returns 200.  The success payload text is elided. -/
def download_route (_active : List String) (url : Option String) : SubmitResult :=
  match url with
  | none => .rejected "URL is required" 400
  | some u => if u = "" then .rejected "URL is required" 400 else .accepted

/-- The submission decision the SPEC describes (spec §4.6: "fails fast ... if
the URL is empty or if a job with the same URL is already active").  Stated
from the spec's words, for comparison with `download_route` above. -/
def submitPerSpec (active : List String) (url : Option String) : SubmitResult :=
  match url with
  | none => .rejected "URL is required" 400
  | some u =>
    if u = "" then .rejected "URL is required" 400
    else if u ∈ active then .rejected "duplicate active URL" 400
    else .accepted

/-! ## Command-template construction in `download()` (new.py lines 1076-1112) -/

/-- Format-selection arguments by media type and platform
(new.py lines 1081-1097). -/
def fmtForMedia (media_type platform : String) : List String :=
  if media_type = "video" then
    if platform = "youtube" then
      ["-f", "bestvideo[ext=mp4][height<=1080]+bestaudio[ext=m4a]/best[ext=mp4]/best"]
    else if platform = "facebook" || platform = "instagram" then
      ["-f", "best[ext=mp4]/best"]
    else
      ["-f", "bestvideo+bestaudio/best"]
  else if media_type = "audio" then
    ["-x", "--audio-format", "mp3", "--audio-quality", "0", "--embed-metadata"]
  else []

/-- Platform-specific extras (new.py lines 1100-1103). -/
def platformArgs (platform : String) : List String :=
  if platform = "youtube" then ["--write-description", "--write-info-json"]
  else if platform = "facebook" || platform = "instagram" then ["--no-check-certificate"]
  else []

/-- The single command template `download()` builds (new.py lines
1076-1112): the tool binary, the format selection (`format_id` is passed
through verbatim unless it is falsy or `"highest"`), platform extras, the
fixed progress/output options, and the URL.  One template — one supervised
process per job; there is no separate video/audio/merge staging. -/
def buildCommandTemplate (format_id : Option String) (media_type platform url : String) :
    List String :=
  ["yt-dlp"]
    ++ (match format_id with
        | some f =>
          if f ≠ "" && f ≠ "highest" then ["-f", f] else fmtForMedia media_type platform
        | none => fmtForMedia media_type platform)
    ++ platformArgs platform
    ++ ["--newline", "--no-color", "--no-warnings", "--socket-timeout", "60"]
    ++ [url]

/-! ## The retrying command runner `run_yt_dlp_command` (new.py lines 346-480) -/

/-- The outcome of one invocation of the external tool inside
`run_yt_dlp_command`: exit code 0 with captured output, or a non-zero exit
with captured stderr. -/
inductive ProcOutcome where
  | success (stdout stderr : String)
  | failure (stderr : String)

/-- The error phrases (checked against `result.stderr.lower()`) that make a
non-zero exit retryable (new.py lines 442-445). -/
def transientPhrases : List String :=
  ["403", "forbidden", "unauthorized", "private", "requires login",
   "unable to download", "http error", "connection", "timeout"]

/-- Python `str.lower()` restricted to ASCII, which is all the phrase
matching needs (every phrase is ASCII). -/
def lowerChar (c : Char) : Char :=
  match c with
  | 'A' => 'a' | 'B' => 'b' | 'C' => 'c' | 'D' => 'd' | 'E' => 'e' | 'F' => 'f'
  | 'G' => 'g' | 'H' => 'h' | 'I' => 'i' | 'J' => 'j' | 'K' => 'k' | 'L' => 'l'
  | 'M' => 'm' | 'N' => 'n' | 'O' => 'o' | 'P' => 'p' | 'Q' => 'q' | 'R' => 'r'
  | 'S' => 's' | 'T' => 't' | 'U' => 'u' | 'V' => 'v' | 'W' => 'w' | 'X' => 'x'
  | 'Y' => 'y' | 'Z' => 'z'
  | _ => c

/-- `any(error_phrase in error_msg for ...)` on the lowercased stderr
(new.py lines 436-445). -/
def isTransient (stderr : String) : Bool :=
  transientPhrases.any (fun p => containsSub p.data (stderr.data.map lowerChar))

/-- The result of `run_yt_dlp_command`: the `(stdout, stderr)` pair it
returns (`stdout = none` on failure, lines 460-464), plus the sequence of
`time.sleep` backoff delays performed (line 450, `2 ** retry_count`). -/
structure RunResult where
  stdout : Option String
  stderr : String
  sleeps : List Nat
deriving DecidableEq

/-- `run_yt_dlp_command` (new.py lines 346-464), abstracted over the
per-attempt process outcome `outcomes`.  On a non-zero exit whose stderr
matches a transient phrase, with `use_fallback_methods` set and
`retry_count < max_retries` (`max_retries = settings.get('retry_attempts')`,
line 350), it sleeps `2 ** retry_count` seconds and recursively re-invokes
itself with `retry_count + 1` (lines 448-458); the recursion is total
because `maxRetries - retry_count` strictly decreases. -/
def run_yt_dlp_command (fallback : Bool) (maxRetries : Nat)
    (outcomes : Nat → ProcOutcome) (retry_count : Nat) : RunResult :=
  match outcomes retry_count with
  | .success so se => { stdout := some so, stderr := se, sleeps := [] }
  | .failure se =>
    if h : retry_count < maxRetries ∧ fallback = true ∧ isTransient se = true then
      let r := run_yt_dlp_command fallback maxRetries outcomes (retry_count + 1)
      { r with sleeps := 2 ^ retry_count :: r.sleeps }
    else { stdout := none, stderr := se, sleeps := [] }
termination_by maxRetries - retry_count
decreasing_by omega

/-! ## Concrete environments used to instantiate the theorems -/

/-- A baseline worker environment: a single-file video job for
`video.mp4` in an empty output directory, no cancellation, exit code 0,
output file present with 1000 bytes. -/
def baseEnv : Env where
  is_playlist := false
  media_type := "video"
  overwrite := false
  existing := []
  download_dir := "/downloads".data
  urlBase := "v".data
  predicted := "video.mp4".data
  predictionError := none
  cancelObs := fun _ => false
  iters := []
  returnCode := 0
  fileSize := some 1000
  dirExists := false
  dirSize := 0

/-- Cancellation flag set from the start; the process nevertheless finished
with exit code 0 and the output file exists. -/
def c2Env : Env := { baseEnv with cancelObs := fun _ => true, fileSize := some 5 }

/-- Cancellation set, non-zero exit code. -/
def c4aEnv : Env := { baseEnv with cancelObs := fun _ => true, returnCode := 1 }

/-- No cancellation, exit code 1, one stderr line captured. -/
def c4bEnv : Env :=
  { baseEnv with
    returnCode := 1
    iters := [(none, some "ERROR: HTTP Error 403: Forbidden".data)] }

/-- No cancellation, exit code -15 (SIGTERM), output file present. -/
def c4cEnv : Env := { baseEnv with returnCode := -15, fileSize := some 5 }

/-- A successful highest-quality video job: one progress line, one ffmpeg
merge line, exit 0, file present. -/
def c5Env : Env :=
  { baseEnv with
    iters := [(some "[download]  42.5% of 10.00MiB".data, none),
              (some "[ffmpeg] Merging formats into output.mp4".data, none)] }

/-- Exit 0 but the output file is missing. -/
def c7aEnv : Env := { baseEnv with fileSize := none }

/-- Exit 0, output file present with 7 bytes. -/
def c7bEnv : Env := { baseEnv with fileSize := some 7 }

/-- Playlist job, exit 0, playlist directory missing. -/
def c7cEnv : Env :=
  { baseEnv with is_playlist := true, predicted := "MyList".data, dirExists := false }

/-- Playlist job, exit 0, playlist directory present totalling 123 bytes. -/
def c7dEnv : Env :=
  { baseEnv with
    is_playlist := true
    predicted := "MyList".data
    dirExists := true
    dirSize := 123 }

/-- Exit 0 and the output file exists but is empty (0 bytes). -/
def c7zEnv : Env := { baseEnv with fileSize := some 0 }

/-- Attempt outcomes for the retry runner: the first invocation fails with a
transient 403, the second succeeds. -/
def c9Out : Nat → ProcOutcome :=
  fun k => if k = 0 then .failure "ERROR: HTTP Error 403: Forbidden" else .success "ok" ""

/-! ## Helper lemmas -/

theorem sanitizeBody_no_invalid (f : Str) :
    ∀ c ∈ sanitizeBody f, invalidChar c = false := by
  intro c hc
  unfold sanitizeBody at hc
  rcases List.mem_map.mp hc with ⟨x, _, rfl⟩
  by_cases hx : invalidChar x = true
  · rw [if_pos hx]; decide
  · rw [if_neg hx]; simpa using hx

theorem pySlice_subset (l : Str) (n : Int) : ∀ c ∈ pySlice l n, c ∈ l := by
  intro c hc
  unfold pySlice at hc
  split at hc <;> exact List.take_subset _ _ hc

theorem truncate200_subset (s : Str) : ∀ c ∈ truncate200 s, c ∈ s := by
  intro c hc
  unfold truncate200 at hc
  split at hc
  · rcases List.mem_append.mp hc with h | h
    · have h1 : c ∈ (splitext s).1 := pySlice_subset _ _ _ h
      rw [← splitext_append s]
      exact List.mem_append_left _ h1
    · rw [← splitext_append s]
      exact List.mem_append_right _ h
  · exact hc

theorem pySlice_length (l : Str) (n : Int) (hn : 0 ≤ n) :
    (pySlice l n).length ≤ n.toNat := by
  unfold pySlice
  rw [if_pos hn]
  exact (List.length_take _ _).trans_le (by omega)

theorem truncate200_length (s : Str) (h : (splitext s).2.length ≤ 200) :
    (truncate200 s).length ≤ 200 := by
  unfold truncate200
  split
  · rw [List.length_append]
    have hn : (0 : Int) ≤ 200 - ((splitext s).2.length : Int) := by omega
    have := pySlice_length (splitext s).1 (200 - ((splitext s).2.length : Int)) hn
    omega
  · omega

/-! ## C10: `sanitize_filename` output shape -/

/-- C10 (corrected).  The claim asserts that `sanitize_filename` always
returns a non-empty string of length at most 200 with no forbidden or
control characters, falling back to `"download"`.  The length bound fails
(see `C10_counterexample`): the truncation slices the stem with a Python
slice `name[:200 - len(ext)]`, so when the extension alone exceeds 200
characters the bound can be exceeded.  Amended: the result is non-empty,
contains no forbidden characters (`<>:"/\|?*` and ASCII 0x00-0x1F), is
`"download"` both for empty input and whenever sanitization leaves nothing
of a non-empty input, and has length at most 200 whenever the extension of
the sanitized name has length at most 200. -/
theorem C10_thm (f : Str) :
    sanitize_filename f ≠ [] ∧
    (∀ c ∈ sanitize_filename f, invalidChar c = false) ∧
    (f = [] → sanitize_filename f = "download".data) ∧
    (sanitizeBody f = [] → sanitize_filename f = "download".data) ∧
    ((splitext (sanitizeBody f)).2.length ≤ 200 → (sanitize_filename f).length ≤ 200) := by
  by_cases hf : f = []
  · refine ⟨?_, ?_, fun _ => ?_, fun _ => ?_, fun _ => ?_⟩ <;>
      simp only [sanitize_filename, hf, if_pos rfl]
    · decide
    · decide
    · rfl
    · rfl
    · decide
  · simp only [sanitize_filename, hf, if_false]
    by_cases hs : truncate200 (sanitizeBody f) = []
    · refine ⟨?_, ?_, fun hc => hc.elim, fun _ => ?_, fun _ => ?_⟩ <;>
        simp only [hs, if_pos rfl]
      · decide
      · decide
      · rfl
      · decide
    · refine ⟨?_, ?_, fun hc => hc.elim, fun hb => ?_, fun h => ?_⟩ <;>
        simp only [hs, if_false]
      · exact hs
      · intro c hc
        exact sanitizeBody_no_invalid f c (truncate200_subset _ c hc)
      · exact absurd (by rw [hb]; decide : truncate200 (sanitizeBody f) = []) hs
      · exact truncate200_length _ h

set_option maxRecDepth 4000 in
/-- C10, the failing input: a 1-character stem with a 251-character
extension sanitizes to a 251-character name, exceeding the claimed 200
bound. -/
theorem C10_counterexample :
    200 < (sanitize_filename ('a' :: '.' :: List.replicate 250 'b')).length := by decide

/-- C10 witness: the amended theorem applied at concrete inputs — the empty
input, the input `"?"` whose sanitization leaves nothing (the query split
empties the name, so the `"download"` fallback of line 525 fires), and a
sanitized short name staying within the length bound. -/
theorem C10_witness :
    sanitize_filename [] = "download".data ∧
    sanitize_filename "?".data = "download".data ∧
    (sanitize_filename "a<b?c#d".data).length ≤ 200 :=
  ⟨(C10_thm []).2.2.1 rfl,
   (C10_thm "?".data).2.2.2.1 (by decide),
   (C10_thm "a<b?c#d".data).2.2.2.2 (by decide)⟩

/-! ## C6: filename collision avoidance -/

/-- C6 (corrected).  The claim asserts that with overwrite=false a colliding
predicted name gets ` (1)`, ` (2)`, … inserted before the extension until it
is free, and that with overwrite=true the predicted name is reused
*unchanged*.  The second half fails when the predicted name has no
extension: lines 617-618 first default the extension to `.mp4`/`.mp3` by
media type, so `"video"` becomes `"video.mp4"` even with overwrite=true
(see `C6_counterexample`).  Amended: after the missing extension is
defaulted, overwrite=true reuses `base ++ ext` regardless of existing
files, and overwrite=false chooses the first of `base ++ ext`,
`base (1)ext`, `base (2)ext`, … not already present, where consecutive
counters are tried and every earlier candidate did collide. -/
theorem C6_thm (existing : List Str) (media_type : String)
    (predicted base ext0 : Str) (hsplit : splitext predicted = (base, ext0)) :
    (base ++ ext0 = predicted) ∧
    (resolveName true existing media_type predicted
      = base ++ (if ext0 = [] then ytDefaultExt media_type else ext0)) ∧
    (∃ k, resolveName false existing media_type predicted
          = collisionName base (if ext0 = [] then ytDefaultExt media_type else ext0) k ∧
        collisionName base (if ext0 = [] then ytDefaultExt media_type else ext0) k
          ∉ existing ∧
        ∀ i < k,
          collisionName base (if ext0 = [] then ytDefaultExt media_type else ext0) i
            ∈ existing) := by
  have happ : base ++ ext0 = predicted := by
    have := splitext_append predicted
    rw [hsplit] at this
    exact this
  refine ⟨happ, ?_, ?_⟩
  · simp [resolveName, hsplit]
  · simp only [resolveName, hsplit, if_false, Bool.false_eq_true]
    set ext := if ext0 = [] then ytDefaultExt media_type else ext0 with hext
    obtain ⟨j, hj, hfree⟩ := exists_collision_free existing base ext
    obtain ⟨j', hj', heq, hfree', hmin'⟩ :=
      findName_spec existing base ext (existing.length + 1) 0
        ⟨j, by omega, by simpa using hfree⟩
    refine ⟨j', ?_, ?_, ?_⟩
    · simpa using heq
    · simpa using hfree'
    · intro i hi
      simpa using hmin' i hi

/-- C6, the failing input for the claim as stated: with overwrite=true and
an extensionless predicted name `"video"`, the reused name is
`"video.mp4"`, not the unchanged predicted name. -/
theorem C6_counterexample :
    resolveName true [] "video" "video".data = "video.mp4".data ∧
    "video.mp4".data ≠ "video".data := by
  refine ⟨by decide, by decide⟩

/-- C6 witness: the amended theorem applied to `video.mp4` with
`video.mp4` already present in the directory. -/
theorem C6_witness :
    ("video".data ++ ".mp4".data = "video.mp4".data) ∧
    (resolveName true ["video.mp4".data] "video" "video.mp4".data
      = "video".data ++ ".mp4".data) ∧
    (∃ k, resolveName false ["video.mp4".data] "video" "video.mp4".data
          = collisionName "video".data ".mp4".data k ∧
        collisionName "video".data ".mp4".data k ∉ [("video.mp4".data : Str)] ∧
        ∀ i < k, collisionName "video".data ".mp4".data i ∈ [("video.mp4".data : Str)]) :=
  C6_thm ["video.mp4".data] "video" "video.mp4".data "video".data ".mp4".data rfl

/-! ## C8: the progress parser on known inputs -/

/-- C8 (confirmed).  The download-marker line `"[download]  42.5% of
10.00MiB"` parses to a progress event whose matched percentage is `42.5`
(carried as the progress string `"42.5%"`, line 676); the merge line
`"[ffmpeg] Merging formats into ..."` parses to the `Processing` phase
event; the unrelated line `"[youtube] Extracting URL"` parses to no event;
and on every input line the parser is total and emits at most one event
(it never raises). -/
theorem C8_thm :
    findPercent "[download]  42.5% of 10.00MiB".data = some "42.5".data ∧
    parseStdoutLine "[download]  42.5% of 10.00MiB".data
      = [.update "Downloading" (some "42.5%".data) none none none] ∧
    parseStdoutLine "[ffmpeg] Merging formats into ...".data
      = [.update "Processing" none none none none] ∧
    parseStdoutLine "[youtube] Extracting URL".data = [] ∧
    ∀ l : Str, parseStdoutLine l = [] ∨ ∃ m, parseStdoutLine l = [m] := by
  refine ⟨by decide, by decide, by decide, by decide, ?_⟩
  intro l
  unfold parseStdoutLine
  split
  · cases findPercent l
    · exact Or.inl rfl
    · exact Or.inr ⟨_, rfl⟩
  · split
    · exact Or.inr ⟨_, rfl⟩
    · exact Or.inl rfl

/-! ## Helper lemmas about the worker trace -/

theorem isTerminalMsg_none (x : Msg) (h : statusOf x = none) : isTerminalMsg x = false := by
  unfold isTerminalMsg
  rw [h]

theorem isTerminalMsg_some (x : Msg) (s : String) (h : statusOf x = some s) :
    isTerminalMsg x = (s == "Completed" || s == "Failed" || s == "Cancelled") := by
  unfold isTerminalMsg
  rw [h]

theorem parseStdoutLine_status (l : Str) :
    ∀ m ∈ parseStdoutLine l,
      statusOf m = some "Downloading" ∨ statusOf m = some "Processing" := by
  intro m hm
  unfold parseStdoutLine at hm
  split at hm
  · cases hf : findPercent l with
    | some g => rw [hf] at hm; simp at hm; subst hm; exact Or.inl rfl
    | none => rw [hf] at hm; simp at hm
  · split at hm
    · simp at hm; subst hm; exact Or.inr rfl
    · simp at hm

theorem stdoutMsgs_status (o : Option Str) :
    ∀ m ∈ stdoutMsgs o,
      statusOf m = some "Downloading" ∨ statusOf m = some "Processing" := by
  cases o with
  | none => intro m hm; simp [stdoutMsgs] at hm
  | some l => exact parseStdoutLine_status l

theorem loopRun_status (c : Nat → Bool) (iters : List (Option Str × Option Str)) :
    ∀ k, ∀ m ∈ (loopRun c iters k).msgs,
      statusOf m = some "Downloading" ∨ statusOf m = some "Processing" := by
  induction iters with
  | nil => intro k m hm; simp [loopRun] at hm
  | cons it rest ih =>
    intro k m hm
    unfold loopRun at hm
    split at hm
    · simp at hm
    · simp only [] at hm
      rcases List.mem_append.mp hm with h | h
      · exact stdoutMsgs_status it.1 m h
      · exact ih (k + 1) m h

theorem preMsgs_status (e : Env) :
    ∀ x ∈ preMsgs e,
      statusOf x = none ∨ statusOf x = some "Initializing" ∨
      statusOf x = some "Downloading" ∨ statusOf x = some "Processing" := by
  intro x hx
  unfold preMsgs at hx
  rcases List.mem_append.mp hx with h | h
  · simp at h
    rcases h with rfl | rfl
    · exact Or.inr (Or.inl rfl)
    · exact Or.inl rfl
  · rcases loopRun_status e.cancelObs e.iters 0 x h with hs | hs
    · exact Or.inr (Or.inr (Or.inl hs))
    · exact Or.inr (Or.inr (Or.inr hs))

theorem preMsgs_not_terminal (e : Env) : ∀ x ∈ preMsgs e, isTerminalMsg x = false := by
  intro x hx
  rcases preMsgs_status e x hx with h | h | h | h
  · exact isTerminalMsg_none x h
  all_goals rw [isTerminalMsg_some x _ h]; decide

theorem terminalMsgs_shape (e : Env) :
    ∃ m rest, terminalMsgs e = m :: rest ∧ isTerminalMsg m = true ∧
      ∀ x ∈ rest, statusOf x = none := by
  unfold terminalMsgs
  split
  · exact ⟨_, [], rfl, rfl, by simp⟩
  · split
    · exact ⟨_, [], rfl, rfl, by simp⟩
    · split
      · split
        · refine ⟨_, [_], rfl, rfl, ?_⟩
          intro x hx
          simp at hx
          subst hx
          rfl
        · exact ⟨_, [], rfl, rfl, by simp⟩
      · split
        · refine ⟨_, [_], rfl, rfl, ?_⟩
          intro x hx
          simp at hx
          subst hx
          rfl
        · exact ⟨_, [], rfl, rfl, by simp⟩

theorem terminalMsgs_status (e : Env) :
    ∀ x ∈ terminalMsgs e,
      statusOf x = none ∨ statusOf x = some "Completed" ∨
      statusOf x = some "Failed" ∨ statusOf x = some "Cancelled" := by
  intro x hx
  unfold terminalMsgs at hx
  split at hx
  · simp at hx; subst hx; exact Or.inr (Or.inr (Or.inr rfl))
  · split at hx
    · simp at hx; subst hx; exact Or.inr (Or.inr (Or.inl rfl))
    · split at hx
      · split at hx
        · simp at hx
          rcases hx with rfl | rfl
          · exact Or.inr (Or.inl rfl)
          · exact Or.inl rfl
        · simp at hx; subst hx; exact Or.inr (Or.inr (Or.inl rfl))
      · split at hx
        · simp at hx
          rcases hx with rfl | rfl
          · exact Or.inr (Or.inl rfl)
          · exact Or.inl rfl
        · simp at hx; subst hx; exact Or.inr (Or.inr (Or.inl rfl))

theorem workerTrace_eq (e : Env) (hpred : e.predictionError = none) :
    workerTrace e = preMsgs e ++ terminalMsgs e ++ [.removeProcess] := by
  unfold workerTrace
  rw [hpred]

theorem workerTrace_status (e : Env) :
    ∀ m ∈ workerTrace e,
      statusOf m = none ∨ statusOf m = some "Initializing" ∨
      statusOf m = some "Downloading" ∨ statusOf m = some "Processing" ∨
      statusOf m = some "Completed" ∨ statusOf m = some "Failed" ∨
      statusOf m = some "Cancelled" := by
  intro m hm
  unfold workerTrace at hm
  split at hm
  · simp at hm
    rcases hm with rfl | rfl
    · exact Or.inr (Or.inr (Or.inr (Or.inr (Or.inr (Or.inl rfl)))))
    · exact Or.inl rfl
  · rcases List.mem_append.mp hm with h | h
    · rcases List.mem_append.mp h with h1 | h2
      · rcases preMsgs_status e m h1 with hs | hs | hs | hs
        · exact Or.inl hs
        · exact Or.inr (Or.inl hs)
        · exact Or.inr (Or.inr (Or.inl hs))
        · exact Or.inr (Or.inr (Or.inr (Or.inl hs)))
      · rcases terminalMsgs_status e m h2 with hs | hs | hs | hs
        · exact Or.inl hs
        · exact Or.inr (Or.inr (Or.inr (Or.inr (Or.inl hs))))
        · exact Or.inr (Or.inr (Or.inr (Or.inr (Or.inr (Or.inl hs)))))
        · exact Or.inr (Or.inr (Or.inr (Or.inr (Or.inr (Or.inr hs)))))
    · simp at h
      subst h
      exact Or.inl rfl

theorem find?_terminal (pre : List Msg) (h : ∀ x ∈ pre, isTerminalMsg x = false)
    (m : Msg) (hm : isTerminalMsg m = true) (post : List Msg) :
    (pre ++ m :: post).find? isTerminalMsg = some m := by
  induction pre with
  | nil => simp [List.find?, hm]
  | cons x xs ih =>
    have hx : isTerminalMsg x = false := h x (by simp)
    simp only [List.cons_append, List.find?, hx]
    exact ih fun y hy => h y (by simp [hy])

theorem getTerminal_single (e : Env) (hpred : e.predictionError = none)
    (m : Msg) (hm : isTerminalMsg m = true) (rest : List Msg)
    (hterm : terminalMsgs e = m :: rest) :
    getTerminal (workerTrace e) = some m := by
  unfold getTerminal
  rw [workerTrace_eq e hpred, hterm]
  have hre : preMsgs e ++ (m :: rest) ++ [Msg.removeProcess]
      = preMsgs e ++ m :: (rest ++ [Msg.removeProcess]) := by simp
  rw [hre]
  exact find?_terminal (preMsgs e) (preMsgs_not_terminal e) m hm _

theorem loopRun_observed (c : Nat → Bool)
    (hmono : ∀ a b : Nat, a ≤ b → c a = true → c b = true)
    (j : Nat) (hj : c j = true) :
    ∀ (iters : List (Option Str × Option Str)) (k : Nat),
      j ≤ (loopRun c iters k).idx →
      ((loopRun c iters k).broke || c (loopRun c iters k).idx) = true := by
  intro iters
  induction iters with
  | nil =>
    intro k hle
    by_cases hck : c k = true
    · simp [loopRun, hck]
    · have hidx : (loopRun c [] k).idx = k + 1 := rfl
      rw [hidx] at hle
      have hjk : ¬ j ≤ k := fun hh => hck (hmono j k hh hj)
      have hjek : j = k + 1 := by omega
      have hc1 : c (k + 1) = true := hjek ▸ hj
      simp [loopRun, hc1]
  | cons it rest ih =>
    intro k hle
    by_cases hck : c k = true
    · simp [loopRun, hck]
    · have hbroke : (loopRun c (it :: rest) k).broke = (loopRun c rest (k + 1)).broke := by
        simp [loopRun, hck]
      have hidx : (loopRun c (it :: rest) k).idx = (loopRun c rest (k + 1)).idx := by
        simp [loopRun, hck]
      rw [hidx] at hle
      rw [hbroke, hidx]
      exact ih (k + 1) hle

theorem postCancel_of_observed (e : Env)
    (hmono : ∀ a b : Nat, a ≤ b → e.cancelObs a = true → e.cancelObs b = true)
    (j : Nat) (hj : e.cancelObs j = true) (hle : j ≤ (loopOut e).idx) :
    postCancel e = true :=
  loopRun_observed e.cancelObs hmono j hj e.iters 0 hle

/-! ## C3: terminal-state exclusivity -/

/-- C3 (confirmed).  Every worker trace decomposes as a prefix with no
terminal status event, exactly one terminal event (one of
Completed/Failed/Cancelled), and a tail containing no status event at all
(only the `add_completed` and `remove_process` bookkeeping messages). -/
theorem C3_thm (e : Env) :
    ∃ pre m post, workerTrace e = pre ++ m :: post ∧ isTerminalMsg m = true ∧
      (∀ x ∈ pre, isTerminalMsg x = false) ∧ ∀ x ∈ post, statusOf x = none := by
  cases hpe : e.predictionError with
  | some msg =>
    refine ⟨[], .update "Failed" none (some msg) (some (initialName e)) none,
      [.removeProcess], ?_, rfl, by simp, ?_⟩
    · unfold workerTrace
      rw [hpe]
      rfl
    · intro x hx
      simp at hx
      subst hx
      rfl
  | none =>
    obtain ⟨m, rest, hterm, hm, hrest⟩ := terminalMsgs_shape e
    refine ⟨preMsgs e, m, rest ++ [.removeProcess], ?_, hm, preMsgs_not_terminal e, ?_⟩
    · rw [workerTrace_eq e hpe, hterm]
      simp
    · intro x hx
      rcases List.mem_append.mp hx with h | h
      · exact hrest x h
      · simp at h
        subst h
        rfl

/-- C3 witness: the decomposition at the baseline environment. -/
theorem C3_witness :
    ∃ pre m post, workerTrace baseEnv = pre ++ m :: post ∧ isTerminalMsg m = true ∧
      (∀ x ∈ pre, isTerminalMsg x = false) ∧ ∀ x ∈ post, statusOf x = none :=
  C3_thm baseEnv

/-! ## C2: cancellation precedence -/

/-- C2 (confirmed).  If the cancellation flag — monotone, since the source
uses a `threading.Event` that is never cleared — is set at any observation
point the run reaches (`j ≤ (loopOut e).idx`, the last observation being
the post-loop `is_set()` check of line 688, which precedes the terminal
emission), then the terminal event is `Cancelled` and no `Completed` status
is ever emitted, even when the process finished successfully
(e.g. exit code 0 with the output file present, as in `C2_witness`). -/
theorem C2_thm (e : Env) (j : Nat) (hpred : e.predictionError = none)
    (hmono : ∀ a b : Nat, a ≤ b → e.cancelObs a = true → e.cancelObs b = true)
    (hj : e.cancelObs j = true) (hle : j ≤ (loopOut e).idx) :
    getTerminal (workerTrace e)
      = some (.update "Cancelled" none (some "Download cancelled by user.".data)
          none none) ∧
    ∀ m ∈ workerTrace e, statusOf m ≠ some "Completed" := by
  have hpc : postCancel e = true := postCancel_of_observed e hmono j hj hle
  have hterm : terminalMsgs e
      = [.update "Cancelled" none (some "Download cancelled by user.".data) none none] := by
    unfold terminalMsgs
    rw [if_pos hpc]
  constructor
  · exact getTerminal_single e hpred _ rfl [] hterm
  · intro m hm
    rw [workerTrace_eq e hpred, hterm] at hm
    rcases List.mem_append.mp hm with h | h
    · rcases List.mem_append.mp h with h1 | h2
      · rcases preMsgs_status e m h1 with hs | hs | hs | hs <;> simp [hs]
      · simp at h2
        subst h2
        simp [statusOf]
    · simp at h
      subst h
      simp [statusOf]

/-- C2 witness: flag set from observation 0, process exited 0 with the file
present — the terminal event is still `Cancelled` and `Completed` never
appears. -/
theorem C2_witness :
    getTerminal (workerTrace c2Env)
      = some (.update "Cancelled" none (some "Download cancelled by user.".data)
          none none) ∧
    ∀ m ∈ workerTrace c2Env, statusOf m ≠ some "Completed" :=
  C2_thm c2Env 0 rfl (fun _ _ _ _ => rfl) rfl (Nat.zero_le _)

/-! ## C4: exit-code interpretation -/

/-- C4 (corrected).  The claim's first half holds: with the cancel flag set
at the post-loop check, any exit code — zero or not — yields `Cancelled`,
never `Failed`.  The second half fails: with the flag clear, the code
treats exit code `-15` (SIGTERM, line 693) like success and proceeds to
verification instead of failing (see `C4_counterexample`, where exit `-15`
with the file present yields `Completed`).  Amended: with the flag clear,
any exit code other than 0 and -15 yields `Failed` carrying the last 10
captured stderr lines as the error detail, while -15 is treated like a
zero exit. -/
theorem C4_thm (e : Env) (hpred : e.predictionError = none) :
    (postCancel e = true →
      getTerminal (workerTrace e)
        = some (.update "Cancelled" none (some "Download cancelled by user.".data)
            none none)) ∧
    (postCancel e = false → e.returnCode ≠ 0 → e.returnCode ≠ -15 →
      getTerminal (workerTrace e)
        = some (.update "Failed" none
            (some (failExitMsg e.returnCode (joinNL (lastN 10 (loopOut e).errs))))
            (some (chosenName e)) none)) := by
  constructor
  · intro hpc
    refine getTerminal_single e hpred _ rfl [] ?_
    unfold terminalMsgs
    rw [if_pos hpc]
  · intro hpc h0 h15
    refine getTerminal_single e hpred _ rfl [] ?_
    unfold terminalMsgs
    rw [if_neg (by simp [hpc]), if_pos ⟨h0, h15⟩]

/-- C4, the failing input for the claim as stated: cancel flag clear, exit
code -15 (non-zero), output file present with 5 bytes — the terminal event
is `Completed`, not `Failed`. -/
theorem C4_counterexample :
    c4cEnv.returnCode = -15 ∧ postCancel c4cEnv = false ∧
    getTerminal (workerTrace c4cEnv)
      = some (.update "Completed" (some "100%".data) none (some "video.mp4".data)
          (some 5)) := by
  refine ⟨rfl, by decide, by decide⟩

/-- C4 witness: the amended theorem applied at a cancelled run and at a
genuine failure (exit 1 with a captured stderr line). -/
theorem C4_witness :
    getTerminal (workerTrace c4aEnv)
      = some (.update "Cancelled" none (some "Download cancelled by user.".data)
          none none) ∧
    getTerminal (workerTrace c4bEnv)
      = some (.update "Failed" none
          (some (failExitMsg c4bEnv.returnCode (joinNL (lastN 10 (loopOut c4bEnv).errs))))
          (some (chosenName c4bEnv)) none) :=
  ⟨(C4_thm c4aEnv rfl).1 (by decide),
   (C4_thm c4bEnv rfl).2 (by decide) (by decide) (by decide)⟩

/-! ## C7: output verification after a zero exit -/

/-- C7 (corrected).  The claim asserts the orchestrator verifies the output
file (playlist: the directory with its recursive size sum) exists *and is
non-empty*, failing the job otherwise despite exit 0.  Existence is indeed
checked and a missing file or directory yields `Failed` despite the zero
exit; but emptiness is not checked: a zero-byte file completes with
`filesize_bytes = 0` (lines 713-716 test `os.path.exists` only; see
`C7_counterexample`).  Amended: on a zero exit the worker emits `Failed`
when the expected file (or playlist directory) is missing, and otherwise
emits `Completed` with the measured size — including size 0. -/
theorem C7_thm (e : Env) (hpred : e.predictionError = none)
    (hpc : postCancel e = false) (hrc : e.returnCode = 0) :
    (e.is_playlist = false → e.fileSize = none →
      getTerminal (workerTrace e)
        = some (.update "Failed" none
            (some (notFoundFileMsg (pathJoin e.download_dir (chosenName e))))
            (some (chosenName e)) none)) ∧
    (e.is_playlist = false → ∀ s, e.fileSize = some s →
      getTerminal (workerTrace e)
        = some (.update "Completed" (some "100%".data) none
            (some (chosenName e)) (some s))) ∧
    (e.is_playlist = true → e.dirExists = false →
      getTerminal (workerTrace e)
        = some (.update "Failed" none
            (some (notFoundDirMsg (pathJoin e.download_dir (chosenName e))))
            (some (chosenName e)) none)) ∧
    (e.is_playlist = true → e.dirExists = true →
      getTerminal (workerTrace e)
        = some (.update "Completed" (some "100%".data) none
            (some (chosenName e)) (some e.dirSize))) := by
  refine ⟨fun hpl hfs => ?_, fun hpl s hfs => ?_, fun hpl hd => ?_, fun hpl hd => ?_⟩
  · refine getTerminal_single e hpred _ rfl [] ?_
    unfold terminalMsgs
    rw [if_neg (by simp [hpc]), if_neg (by simp [hrc]), if_neg (by simp [hpl]), hfs]
  · refine getTerminal_single e hpred _ rfl
      [.addCompleted e.media_type (chosenName e) false
        (pathJoin e.download_dir (chosenName e)) s] ?_
    unfold terminalMsgs
    rw [if_neg (by simp [hpc]), if_neg (by simp [hrc]), if_neg (by simp [hpl]), hfs]
  · refine getTerminal_single e hpred _ rfl [] ?_
    unfold terminalMsgs
    rw [if_neg (by simp [hpc]), if_neg (by simp [hrc]), if_pos hpl, if_neg (by simp [hd])]
  · refine getTerminal_single e hpred _ rfl
      [.addCompleted "playlist" (chosenName e) true
        (pathJoin e.download_dir (chosenName e)) e.dirSize] ?_
    unfold terminalMsgs
    rw [if_neg (by simp [hpc]), if_neg (by simp [hrc]), if_pos hpl, if_pos hd]

/-- C7, the failing input for the claim as stated: exit 0, output file
exists but has size 0 — the terminal event is `Completed` carrying size 0,
where the claim demands `Failed` for an empty output. -/
theorem C7_counterexample :
    c7zEnv.returnCode = 0 ∧ c7zEnv.fileSize = some 0 ∧
    getTerminal (workerTrace c7zEnv)
      = some (.update "Completed" (some "100%".data) none (some "video.mp4".data)
          (some 0)) := by
  refine ⟨rfl, rfl, by decide⟩

/-- C7 witness: the amended theorem applied at a missing file, a present
7-byte file, a missing playlist directory, and a present playlist directory
totalling 123 bytes. -/
theorem C7_witness :
    getTerminal (workerTrace c7aEnv)
      = some (.update "Failed" none
          (some (notFoundFileMsg (pathJoin c7aEnv.download_dir (chosenName c7aEnv))))
          (some (chosenName c7aEnv)) none) ∧
    getTerminal (workerTrace c7bEnv)
      = some (.update "Completed" (some "100%".data) none
          (some (chosenName c7bEnv)) (some 7)) ∧
    getTerminal (workerTrace c7cEnv)
      = some (.update "Failed" none
          (some (notFoundDirMsg (pathJoin c7cEnv.download_dir (chosenName c7cEnv))))
          (some (chosenName c7cEnv)) none) ∧
    getTerminal (workerTrace c7dEnv)
      = some (.update "Completed" (some "100%".data) none
          (some (chosenName c7dEnv)) (some c7dEnv.dirSize)) :=
  ⟨(C7_thm c7aEnv rfl (by decide) rfl).1 rfl rfl,
   (C7_thm c7bEnv rfl (by decide) rfl).2.1 rfl 7 rfl,
   (C7_thm c7cEnv rfl (by decide) rfl).2.2.1 rfl rfl,
   (C7_thm c7dEnv rfl (by decide) rfl).2.2.2 rfl rfl⟩

/-! ## C5: merge sequencing of a highest-quality video job -/

/-- C5 (corrected).  The claim asserts a "highest quality video" job's
event sequence shows `DownloadingVideo → DownloadingAudio → Merging →
Completed`.  No such phases exist in the code: `download()` builds a single
command with a combined format selector (`bestvideo+bestaudio/best`,
line 1090), so one external process downloads both streams and merges them
internally, and the worker's statuses are drawn only from Initializing /
Downloading / Processing plus one terminal event (`C5_counterexample`
shows a successful such job whose trace has `Completed` but no
`DownloadingVideo`).  Amended: a highest-quality video request yields one
command template with the combined selector, and no status named
`DownloadingVideo`, `DownloadingAudio` or `Merging` is ever emitted by any
worker run. -/
theorem C5_thm (e : Env) (url : String) :
    (∀ m ∈ workerTrace e,
      statusOf m ≠ some "DownloadingVideo" ∧ statusOf m ≠ some "DownloadingAudio" ∧
      statusOf m ≠ some "Merging") ∧
    buildCommandTemplate (some "highest") "video" "generic" url
      = ["yt-dlp", "-f", "bestvideo+bestaudio/best",
         "--newline", "--no-color", "--no-warnings", "--socket-timeout", "60", url] := by
  constructor
  · intro m hm
    rcases workerTrace_status e m hm with h | h | h | h | h | h | h <;>
      exact ⟨by simp [h], by simp [h], by simp [h]⟩
  · rfl

/-- C5 witness: the amended theorem applied at the baseline environment and
a concrete URL. -/
theorem C5_witness :
    (∀ m ∈ workerTrace baseEnv,
      statusOf m ≠ some "DownloadingVideo" ∧ statusOf m ≠ some "DownloadingAudio" ∧
      statusOf m ≠ some "Merging") ∧
    buildCommandTemplate (some "highest") "video" "generic" "https://example.com/v"
      = ["yt-dlp", "-f", "bestvideo+bestaudio/best",
         "--newline", "--no-color", "--no-warnings", "--socket-timeout", "60",
         "https://example.com/v"] :=
  C5_thm baseEnv "https://example.com/v"

/-- C5, the failing input for the claim as stated: a successful
highest-quality video job (progress line, ffmpeg merge line, exit 0, file
present) whose trace contains `Completed` but no `DownloadingVideo` phase
event — the claimed `DownloadingVideo → DownloadingAudio → Merging →
Completed` sequence never occurs. -/
theorem C5_counterexample :
    (∃ m ∈ workerTrace c5Env, statusOf m = some "Completed") ∧
    ∀ m ∈ workerTrace c5Env, statusOf m ≠ some "DownloadingVideo" := by
  refine ⟨by decide, by decide⟩

/-! ## C1: duplicate submission handling -/

/-- C1 (corrected).  The claim asserts that submitting a URL already active
is rejected synchronously before any process is spawned.  The `/download`
route performs no duplicate check: its only synchronous rejection is a
missing or empty URL (lines 1058-1059), after which it unconditionally
spawns a worker thread — even when the same URL is already in the active
set (`C1_counterexample`; the GUI merely declines to add a second table row,
line 3480, while the second worker runs).  Amended: `submit` rejects
synchronously exactly when the URL is missing or empty; any non-empty URL —
duplicate or not, before or after the first job's terminal state — is
accepted and a worker is spawned, and the decision is independent of the
active set. -/
theorem C1_thm (active₁ active₂ : List String) (u : String) (h : u ≠ "") :
    download_route active₁ (some u) = SubmitResult.accepted ∧
    download_route active₁ (some u) = download_route active₂ (some u) ∧
    download_route active₁ none = SubmitResult.rejected "URL is required" 400 ∧
    download_route active₁ (some "") = SubmitResult.rejected "URL is required" 400 := by
  refine ⟨?_, rfl, rfl, rfl⟩
  simp [download_route, h]

/-- C1, the failing input for the claim as stated: with a job for `"u"`
already active, submitting `"u"` again is accepted (and a second worker is
spawned), where the spec-mandated behaviour (`submitPerSpec`) rejects it. -/
theorem C1_counterexample :
    download_route ["u"] (some "u") = SubmitResult.accepted ∧
    submitPerSpec ["u"] (some "u") = SubmitResult.rejected "duplicate active URL" 400 := by
  refine ⟨rfl, by decide⟩

/-- C1 witness: the amended theorem applied with `"u"` already active. -/
theorem C1_witness :
    download_route ["u", "v"] (some "u") = SubmitResult.accepted ∧
    download_route ["u", "v"] (some "u") = download_route [] (some "u") ∧
    download_route ["u", "v"] none = SubmitResult.rejected "URL is required" 400 ∧
    download_route ["u", "v"] (some "") = SubmitResult.rejected "URL is required" 400 :=
  C1_thm ["u", "v"] [] "u" (by decide)

/-! ## C9: bounded retry with exponential backoff -/

theorem run_sleeps (mr : Nat) (out : Nat → ProcOutcome) :
    ∀ d k, mr - k ≤ d →
      ∃ n, n ≤ mr - k ∧
        (run_yt_dlp_command true mr out k).sleeps
          = (List.range n).map (fun i => 2 ^ (k + i)) := by
  intro d
  induction d with
  | zero =>
    intro k hk
    refine ⟨0, by omega, ?_⟩
    rw [run_yt_dlp_command]
    cases hout : out k with
    | success so se => rfl
    | failure se =>
      have hnc : ¬(k < mr ∧ true = true ∧ isTransient se = true) := by
        rintro ⟨h1, -, -⟩
        omega
      dsimp only
      rw [dif_neg hnc]
      rfl
  | succ d ih =>
    intro k hk
    rw [run_yt_dlp_command]
    cases hout : out k with
    | success so se => exact ⟨0, by omega, rfl⟩
    | failure se =>
      by_cases hc : k < mr ∧ true = true ∧ isTransient se = true
      · have hklt : k < mr := hc.1
        obtain ⟨n, hn, hs⟩ := ih (k + 1) (by omega)
        refine ⟨n + 1, by omega, ?_⟩
        dsimp only
        rw [dif_pos hc]
        dsimp only
        rw [hs, List.range_succ_eq_map]
        simp only [List.map_cons, List.map_map, Nat.add_zero]
        refine congrArg (fun t => 2 ^ k :: t) ?_
        apply List.map_congr_left
        intro a _
        simp only [Function.comp_apply]
        congr 1
        omega
      · refine ⟨0, by omega, ?_⟩
        dsimp only
        rw [dif_neg hc]
        rfl

/-- C9 (confirmed).  With `use_fallback_methods` enabled (the shipped
default, line 323) and `max_retries = settings.get('retry_attempts')`: the
runner performs at most `maxRetries` backoff sleeps — hence at most
`maxRetries` additional attempts beyond the first — so the self-recursion
(lines 456-458) always terminates (the Lean definition is total by
well-founded recursion on `maxRetries - retry_count`); the backoff delays
form the doubling sequence `2^0, 2^1, …` (line 450); and whenever an
attempt `k < maxRetries` fails with stderr matching a transient phrase
(403/forbidden/unauthorized/timeout/connection are all in the code's
phrase list, lines 442-445), the runner re-runs the same step at attempt
`k+1` after prepending the `2^k` sleep. -/
theorem C9_thm (maxRetries : Nat) (outcomes : Nat → ProcOutcome) :
    ((run_yt_dlp_command true maxRetries outcomes 0).sleeps.length ≤ maxRetries) ∧
    ((run_yt_dlp_command true maxRetries outcomes 0).sleeps
      = (List.range (run_yt_dlp_command true maxRetries outcomes 0).sleeps.length).map
          (fun i => 2 ^ i)) ∧
    (∀ k se, outcomes k = .failure se → k < maxRetries → isTransient se = true →
      run_yt_dlp_command true maxRetries outcomes k
        = { run_yt_dlp_command true maxRetries outcomes (k + 1) with
            sleeps := 2 ^ k :: (run_yt_dlp_command true maxRetries outcomes (k + 1)).sleeps }) := by
  obtain ⟨n, hn, hs⟩ := run_sleeps maxRetries outcomes maxRetries 0 (by omega)
  have hlen : (run_yt_dlp_command true maxRetries outcomes 0).sleeps.length = n := by
    rw [hs]
    simp
  refine ⟨by omega, ?_, ?_⟩
  · rw [hlen, hs]
    simp
  · intro k se hout hk htr
    rw [run_yt_dlp_command, hout]
    dsimp only
    rw [dif_pos ⟨hk, rfl, htr⟩]

/-- C9 witness: a first attempt failing with a transient 403 is re-run and
succeeds; the sleep list is bounded by the attempt limit and the retry
equation holds at attempt 0. -/
theorem C9_witness :
    (run_yt_dlp_command true 3 c9Out 0).sleeps.length ≤ 3 ∧
    run_yt_dlp_command true 3 c9Out 0
      = { run_yt_dlp_command true 3 c9Out 1 with
          sleeps := 2 ^ 0 :: (run_yt_dlp_command true 3 c9Out 1).sleeps } :=
  ⟨(C9_thm 3 c9Out).1,
   (C9_thm 3 c9Out).2.2 0 "ERROR: HTTP Error 403: Forbidden" rfl (by decide) (by decide)⟩

end UMD
